import Mathlib

/-!
Shallow embedding of the data layer of a local-first todo application
(src/App.tsx): an SQLite `items` table mirrored to a remote libSQL store.

The `items` relation is `items(id INTEGER PRIMARY KEY, done INT, value TEXT)`.
A table is embedded as a `List ItemEntity` kept in rowid (ascending id) order,
which is the order a plain `SELECT * FROM items WHERE done = ?` scan returns.

The database operations of the source are embedded one by one:
  - `addItemAsync`        (INSERT INTO items (done, value) VALUES (?, ?))
  - `updateItemAsDoneAsync` (UPDATE items SET done = ? WHERE id = ?)
  - `deleteItemAsync`     (DELETE FROM items WHERE id = ?)
  - `selectByDone`        (the SELECT issued twice by `refetchItems`)
  - `refetchItems`        (the View Materializer: both partitions in one pass)
  - `migrateDbIfNeeded`   (the Schema Manager, instrumented with an event trace)
  - `sync` / `pollTick`   (the Sync Trigger of the `Main` component)
-/

set_option autoImplicit false

/-- A row of the `items` table, as the `ItemEntity` interface of the source. -/
structure ItemEntity where
  id : Nat
  done : Bool
  value : String
deriving Repr, DecidableEq

/-- SQLite rowid assignment for `INTEGER PRIMARY KEY` without AUTOINCREMENT:
the new row gets one more than the largest rowid currently in the table
(1 on an empty table). -/
def nextId (rows : List ItemEntity) : Nat :=
  (rows.foldr (fun r m => max r.id m) 0) + 1

/-- `addItemAsync(db, text)`: if `text !== ""`, runs
`INSERT INTO items (done, value) VALUES (?, ?)` with `done = false`,
`value = text`; otherwise does nothing. -/
def addItemAsync (rows : List ItemEntity) (text : String) : List ItemEntity :=
  if text ≠ "" then
    rows ++ [{ id := nextId rows, done := false, value := text }]
  else
    rows

/-- `updateItemAsDoneAsync(db, id)`: runs
`UPDATE items SET done = ? WHERE id = ?` with `done = true`. -/
def updateItemAsDoneAsync (rows : List ItemEntity) (i : Nat) : List ItemEntity :=
  rows.map fun r => if r.id = i then { r with done := true } else r

/-- `deleteItemAsync(db, id)`: runs `DELETE FROM items WHERE id = ?`. -/
def deleteItemAsync (rows : List ItemEntity) (i : Nat) : List ItemEntity :=
  rows.filter fun r => r.id != i

/-- The query `SELECT * FROM items WHERE done = ?` issued by `refetchItems`:
a scan of the table in rowid order keeping the rows whose `done` flag
equals the bound parameter. -/
def selectByDone (rows : List ItemEntity) (d : Bool) : List ItemEntity :=
  rows.filter fun r => r.done == d

/-- The two in-memory view partitions held by the `Main` component
(`todoItems` and `doneItems` state). -/
structure ViewState where
  todoItems : List ItemEntity
  doneItems : List ItemEntity
deriving Repr, DecidableEq

/-- `refetchItems`: inside one transaction, sets `todoItems` from
`SELECT * FROM items WHERE done = false` and `doneItems` from
`SELECT * FROM items WHERE done = true`. -/
def refetchItems (rows : List ItemEntity) : ViewState :=
  { todoItems := selectByDone rows false, doneItems := selectByDone rows true }

/-- The table-order invariant of the embedding: rows are kept in strictly
ascending id (rowid) order, the order an unordered SELECT scan returns. -/
def idsSorted (rows : List ItemEntity) : Prop :=
  rows.Pairwise fun a b => a.id < b.id

/-! ### Schema Manager (`migrateDbIfNeeded`) -/

/-- Externally visible actions of `migrateDbIfNeeded`, in order. -/
inductive DbEvent
  | syncLibSQL
  | readUserVersion
  | execStmt (sql : String)
deriving Repr, DecidableEq

/-- Database state as the Schema Manager sees it: the persisted
`PRAGMA user_version`, whether the `items` table exists, and its rows. -/
structure MigrationDb where
  userVersion : Nat
  hasItemsTable : Bool
  rows : List ItemEntity
deriving Repr, DecidableEq

/-- Outcome of a `migrateDbIfNeeded` call: whether it completed without a
statement failure, the database state it left behind, and the trace of
actions it performed. -/
structure MigrateOutcome where
  ok : Bool
  db : MigrationDb
  events : List DbEvent
deriving Repr, DecidableEq

/-- The compiled-in target schema version of the source. -/
def DATABASE_VERSION : Nat := 1

/-- The single migration statement of version step 0. -/
def createItemsSql : String :=
  "CREATE TABLE IF NOT EXISTS items (id INTEGER PRIMARY KEY NOT NULL, done INT, value TEXT);"

/-- The final statement persisting the new schema version. -/
def setVersionSql : String :=
  "PRAGMA user_version = 1"

/-- `migrateDbIfNeeded(db)`: first calls `db.syncLibSQL()`, then reads
`PRAGMA user_version`; returns at once when the version is already at least
`DATABASE_VERSION`; otherwise (version 0) executes the CREATE TABLE
statement and then persists the new version. `createOk` and `pragmaOk` say
whether the two statements succeed; a failing statement leaves the database
unchanged and aborts the call (later statements are not attempted). -/
def migrateDbIfNeeded (createOk pragmaOk : Bool) (db : MigrationDb) :
    MigrateOutcome :=
  let ev0 : List DbEvent := [.syncLibSQL, .readUserVersion]
  if db.userVersion ≥ DATABASE_VERSION then
    { ok := true, db := db, events := ev0 }
  else if db.userVersion = 0 then
    if createOk then
      let db1 := { db with hasItemsTable := true }
      if pragmaOk then
        { ok := true
          db := { db1 with userVersion := DATABASE_VERSION }
          events := ev0 ++ [.execStmt createItemsSql, .execStmt setVersionSql] }
      else
        { ok := false, db := db1
          events := ev0 ++ [.execStmt createItemsSql, .execStmt setVersionSql] }
    else
      { ok := false, db := db, events := ev0 ++ [.execStmt createItemsSql] }
  else
    if pragmaOk then
      { ok := true, db := { db with userVersion := DATABASE_VERSION }
        events := ev0 ++ [.execStmt setVersionSql] }
    else
      { ok := false, db := db, events := ev0 ++ [.execStmt setVersionSql] }

/-! ### Sync Trigger (the `sync` callback and the polling interval) -/

/-- Requests the `sync` callback issues, in order. -/
inductive UiEvent
  | syncCall
  | refreshRequest
deriving Repr, DecidableEq

/-- The state of the `Main` component that the Sync Trigger touches:
the local table, the two materialized view partitions, and the
`enablePollingSync` flag. -/
structure AppState where
  rows : List ItemEntity
  views : ViewState
  enablePollingSync : Bool
deriving Repr, DecidableEq

/-- Modelled from the spec: `db.syncLibSQL()` is the opaque replication
primitive of the external libSQL library, absent from this repository.
Per the spec it completes with a binary success or failure status; on
success it reconciles the local rows with the remote store (an arbitrary
function `reconcile`, since conflict policy is delegated entirely to the
primitive), and on failure it must not corrupt local state, so the local
rows are returned unchanged. -/
def syncLibSQL (reconcile : List ItemEntity → List ItemEntity) (ok : Bool)
    (rows : List ItemEntity) : Bool × List ItemEntity :=
  if ok then (true, reconcile rows) else (false, rows)

/-- Result of one `sync` invocation: the component state afterwards, the
requests issued in order, and the replication status. -/
structure SyncResult where
  state : AppState
  events : List UiEvent
  ok : Bool
deriving Repr, DecidableEq

/-- The `sync` callback of `Main`: calls `db.syncLibSQL()` and then, when
`refetch` is set, refetches both view partitions. -/
def sync (reconcile : List ItemEntity → List ItemEntity) (okFlag : Bool)
    (refetch : Bool) (st : AppState) : SyncResult :=
  let r := syncLibSQL reconcile okFlag st.rows
  let st1 := { st with rows := r.2 }
  if refetch then
    { state := { st1 with views := refetchItems r.2 }
      events := [.syncCall, .refreshRequest]
      ok := r.1 }
  else
    { state := st1, events := [.syncCall], ok := r.1 }

/-- One firing of the 2000 ms interval: while `enablePollingSync` is set the
interval callback runs `sync(true)`; once the flag is cleared the interval
has been cancelled and nothing runs. -/
def pollTick (reconcile : List ItemEntity → List ItemEntity) (okFlag : Bool)
    (st : AppState) : SyncResult :=
  if st.enablePollingSync then
    sync reconcile okFlag true st
  else
    { state := st, events := [], ok := true }

/-- `n` firings of the interval with the replication primitive failing
every time. -/
def runFailingTicks (reconcile : List ItemEntity → List ItemEntity)
    (n : Nat) (st : AppState) : AppState :=
  match n with
  | 0 => st
  | m + 1 => runFailingTicks reconcile m (pollTick reconcile false st).state

/-! ### Helper lemmas -/

theorem id_le_fold_max (rows : List ItemEntity) (r : ItemEntity)
    (hr : r ∈ rows) : r.id ≤ rows.foldr (fun x m => max x.id m) 0 := by
  induction rows with
  | nil => cases hr
  | cons a l ih =>
    rcases List.mem_cons.mp hr with h | h
    · subst h; exact le_max_left _ _
    · exact le_trans (ih h) (le_max_right _ _)

theorem id_lt_nextId (rows : List ItemEntity) (r : ItemEntity)
    (hr : r ∈ rows) : r.id < nextId rows :=
  Nat.lt_succ_of_le (id_le_fold_max rows r hr)

theorem nextId_not_mem (rows : List ItemEntity) :
    nextId rows ∉ rows.map ItemEntity.id := by
  intro hmem
  rcases List.mem_map.mp hmem with ⟨r, hr, hid⟩
  exact absurd hid (Nat.ne_of_lt (id_lt_nextId rows r hr))

theorem selectByDone_update_false (rows : List ItemEntity) (i : Nat) :
    selectByDone (updateItemAsDoneAsync rows i) false
      = (selectByDone rows false).filter fun x => x.id != i := by
  induction rows with
  | nil => rfl
  | cons a l ih =>
    by_cases h : a.id = i <;>
      cases hd : a.done <;>
        simp [selectByDone, updateItemAsDoneAsync, h, hd] at ih ⊢ <;>
          exact ih

theorem countP_update_true (rows : List ItemEntity) (i : Nat) :
    (selectByDone (updateItemAsDoneAsync rows i) true).countP
        (fun x => x.id == i)
      = rows.countP fun x => x.id == i := by
  induction rows with
  | nil => rfl
  | cons a l ih =>
    by_cases h : a.id = i <;>
      cases hd : a.done <;>
        simp [selectByDone, updateItemAsDoneAsync, h, hd, List.countP_cons]
          at ih ⊢ <;>
          omega

theorem countP_id_eq_one (rows : List ItemEntity) (i : Nat)
    (hnodup : (rows.map ItemEntity.id).Nodup) (r : ItemEntity)
    (hr : r ∈ rows) (hid : r.id = i) :
    rows.countP (fun x => x.id == i) = 1 := by
  induction rows with
  | nil => cases hr
  | cons a l ih =>
    rw [List.map_cons, List.nodup_cons] at hnodup
    rcases List.mem_cons.mp hr with rfl | hmem
    · have hz : l.countP (fun x => x.id == i) = 0 := by
        rw [List.countP_eq_zero]
        intro x hx hxe
        exact hnodup.1 (hid ▸ (beq_iff_eq.mp hxe) ▸ List.mem_map_of_mem _ hx)
      simp [List.countP_cons, hid, hz]
    · have ha : a.id ≠ i := fun he =>
        hnodup.1 (he ▸ hid ▸ List.mem_map_of_mem _ hmem)
      simp [List.countP_cons, ha, ih hnodup.2 hmem]

/-! ### Claim theorems -/

/-- Claim C4: for every non-empty text, `addItemAsync` inserts exactly one
new record with that value and `done = false`: the table gains exactly that
record, its id is fresh, the pending partition gains exactly that record,
and the completed partition is unchanged. -/
theorem add_nonempty_inserts_one (rows : List ItemEntity) (t : String)
    (h : t ≠ "") :
    addItemAsync rows t
      = rows ++ [{ id := nextId rows, done := false, value := t }] ∧
    nextId rows ∉ rows.map ItemEntity.id ∧
    selectByDone (addItemAsync rows t) false
      = selectByDone rows false
          ++ [{ id := nextId rows, done := false, value := t }] ∧
    selectByDone (addItemAsync rows t) true = selectByDone rows true := by
  refine ⟨by simp [addItemAsync, h], nextId_not_mem rows, ?_, ?_⟩ <;>
    simp [addItemAsync, selectByDone, h, List.filter_append]

theorem add_nonempty_inserts_one_witness :
    ("Buy milk" ≠ "") ∧
    (addItemAsync [] "Buy milk"
      = [] ++ [{ id := nextId [], done := false, value := "Buy milk" }] ∧
    nextId [] ∉ ([] : List ItemEntity).map ItemEntity.id ∧
    selectByDone (addItemAsync [] "Buy milk") false
      = selectByDone [] false
          ++ [{ id := nextId [], done := false, value := "Buy milk" }] ∧
    selectByDone (addItemAsync [] "Buy milk") true = selectByDone [] true) :=
  ⟨by decide, add_nonempty_inserts_one [] "Buy milk" (by decide)⟩

/-- Claim C6: `deleteItemAsync i` removes the record with id `i` from
whichever partition held it (afterwards neither partition holds a record
with id `i`, and each partition is its old value with id `i` filtered out);
deleting an id that is absent (here `j`) leaves the store unchanged and
raises no error. -/
theorem delete_removes_by_id (rows : List ItemEntity) (i j : Nat)
    (hj : ∀ r ∈ rows, r.id ≠ j) :
    deleteItemAsync rows j = rows ∧
    selectByDone (deleteItemAsync rows i) false
      = (selectByDone rows false).filter (fun r => r.id != i) ∧
    selectByDone (deleteItemAsync rows i) true
      = (selectByDone rows true).filter (fun r => r.id != i) ∧
    (deleteItemAsync rows i).countP (fun r => r.id == i) = 0 := by
  refine ⟨?_, ?_, ?_, ?_⟩
  · rw [deleteItemAsync, List.filter_eq_self]
    intro r hr
    simpa using hj r hr
  · simp [deleteItemAsync, selectByDone, List.filter_filter, Bool.and_comm]
  · simp [deleteItemAsync, selectByDone, List.filter_filter, Bool.and_comm]
  · rw [List.countP_eq_zero]
    intro r hr
    simp only [deleteItemAsync, List.mem_filter] at hr
    simpa using hr.2

theorem delete_removes_by_id_witness :
    (∀ r ∈ [⟨1, false, "a"⟩, ⟨2, true, "b"⟩] , ItemEntity.id r ≠ 9) ∧
    (deleteItemAsync [⟨1, false, "a"⟩, ⟨2, true, "b"⟩] 9
      = [⟨1, false, "a"⟩, ⟨2, true, "b"⟩] ∧
    selectByDone (deleteItemAsync [⟨1, false, "a"⟩, ⟨2, true, "b"⟩] 2) false
      = (selectByDone [⟨1, false, "a"⟩, ⟨2, true, "b"⟩] false).filter
          (fun r => r.id != 2) ∧
    selectByDone (deleteItemAsync [⟨1, false, "a"⟩, ⟨2, true, "b"⟩] 2) true
      = (selectByDone [⟨1, false, "a"⟩, ⟨2, true, "b"⟩] true).filter
          (fun r => r.id != 2) ∧
    (deleteItemAsync [⟨1, false, "a"⟩, ⟨2, true, "b"⟩] 2).countP
        (fun r => r.id == 2) = 0) :=
  ⟨by decide,
   delete_removes_by_id [⟨1, false, "a"⟩, ⟨2, true, "b"⟩] 2 9 (by decide)⟩

/-- Claim C7: adding empty text is a silent no-op: no record is created,
no error is surfaced, and both view partitions keep their contents and
cardinalities. -/
theorem add_empty_text_noop (rows : List ItemEntity) :
    addItemAsync rows "" = rows ∧
    selectByDone (addItemAsync rows "") false = selectByDone rows false ∧
    selectByDone (addItemAsync rows "") true = selectByDone rows true ∧
    (selectByDone (addItemAsync rows "") false).length
      = (selectByDone rows false).length ∧
    (selectByDone (addItemAsync rows "") true).length
      = (selectByDone rows true).length := by
  simp [addItemAsync]

/-- Claim C10: frame property of the CRUD operations: `updateItemAsDoneAsync i`
and `deleteItemAsync i` leave every record whose id differs from `i`
unchanged and in place (the sublists of such records are equal), and
`addItemAsync` leaves every pre-existing record unchanged (the old table
is a prefix of the new one). -/
theorem crud_frame (rows : List ItemEntity) (i : Nat) (t : String) :
    (updateItemAsDoneAsync rows i).filter (fun r => r.id != i)
      = rows.filter (fun r => r.id != i) ∧
    (deleteItemAsync rows i).filter (fun r => r.id != i)
      = rows.filter (fun r => r.id != i) ∧
    (addItemAsync rows t).take rows.length = rows := by
  refine ⟨?_, ?_, ?_⟩
  · induction rows with
    | nil => rfl
    | cons a l ih =>
      by_cases h : a.id = i <;>
        simp [updateItemAsDoneAsync, h] at ih ⊢ <;>
          exact ih
  · simp [deleteItemAsync, List.filter_filter]
  · rw [addItemAsync]
    split
    · exact List.take_left rows _
    · exact List.take_length rows

/-- Claim C5: markDone on a record present with `done = false` moves it from
the pending to the completed partition exactly once: the pending partition
loses exactly that record, the completed partition gains it and afterwards
holds exactly one record with that id while the pending partition holds
none; markDone is idempotent (a second call changes nothing), and markDone
on an absent id (here `j`) is a no-op, not an error. -/
theorem markDone_moves_once_idempotent (rows : List ItemEntity) (i j : Nat)
    (r : ItemEntity) (hnodup : (rows.map ItemEntity.id).Nodup)
    (hr : r ∈ rows) (hid : r.id = i) (hdone : r.done = false)
    (hj : ∀ x ∈ rows, x.id ≠ j) :
    r ∈ selectByDone rows false ∧
    { r with done := true }
      ∈ selectByDone (updateItemAsDoneAsync rows i) true ∧
    selectByDone (updateItemAsDoneAsync rows i) false
      = (selectByDone rows false).filter (fun x => x.id != i) ∧
    (selectByDone (updateItemAsDoneAsync rows i) true).countP
        (fun x => x.id == i) = 1 ∧
    (selectByDone (updateItemAsDoneAsync rows i) false).countP
        (fun x => x.id == i) = 0 ∧
    updateItemAsDoneAsync (updateItemAsDoneAsync rows i) i
      = updateItemAsDoneAsync rows i ∧
    updateItemAsDoneAsync rows j = rows := by
  refine ⟨?_, ?_, selectByDone_update_false rows i, ?_, ?_, ?_, ?_⟩
  · rw [selectByDone, List.mem_filter]
    exact ⟨hr, by simp [hdone]⟩
  · rw [selectByDone, List.mem_filter]
    constructor
    · rw [updateItemAsDoneAsync]
      have hfr : ({ r with done := true } : ItemEntity)
          = if r.id = i then { r with done := true } else r := by
        rw [if_pos hid]
      rw [hfr]
      exact List.mem_map_of_mem _ hr
    · rfl
  · exact (countP_update_true rows i).trans
      (countP_id_eq_one rows i hnodup r hr hid)
  · rw [selectByDone_update_false rows i, List.countP_eq_zero]
    intro x hx
    rw [List.mem_filter] at hx
    simpa using hx.2
  · rw [updateItemAsDoneAsync, updateItemAsDoneAsync, List.map_map]
    refine List.map_congr_left ?_
    intro a _
    by_cases h : a.id = i <;> simp [Function.comp, h]
  · rw [updateItemAsDoneAsync]
    have hcong : ∀ x ∈ rows,
        (if x.id = j then { x with done := true } else x) = id x := by
      intro x hx
      rw [if_neg (hj x hx)]
      rfl
    rw [List.map_congr_left hcong, List.map_id]

theorem markDone_moves_once_idempotent_witness :
    (([⟨1, false, "a"⟩, ⟨2, true, "b"⟩] : List ItemEntity).map
        ItemEntity.id).Nodup ∧
    (⟨1, false, "a"⟩ : ItemEntity) ∈
        ([⟨1, false, "a"⟩, ⟨2, true, "b"⟩] : List ItemEntity) ∧
    (⟨1, false, "a"⟩ : ItemEntity).id = 1 ∧
    (⟨1, false, "a"⟩ : ItemEntity).done = false ∧
    (∀ x ∈ ([⟨1, false, "a"⟩, ⟨2, true, "b"⟩] : List ItemEntity),
        x.id ≠ 9) ∧
    ((⟨1, false, "a"⟩ : ItemEntity)
        ∈ selectByDone [⟨1, false, "a"⟩, ⟨2, true, "b"⟩] false ∧
    ({ (⟨1, false, "a"⟩ : ItemEntity) with done := true })
      ∈ selectByDone
          (updateItemAsDoneAsync [⟨1, false, "a"⟩, ⟨2, true, "b"⟩] 1) true ∧
    selectByDone
        (updateItemAsDoneAsync [⟨1, false, "a"⟩, ⟨2, true, "b"⟩] 1) false
      = (selectByDone [⟨1, false, "a"⟩, ⟨2, true, "b"⟩] false).filter
          (fun x => x.id != 1) ∧
    (selectByDone
        (updateItemAsDoneAsync [⟨1, false, "a"⟩, ⟨2, true, "b"⟩] 1)
        true).countP (fun x => x.id == 1) = 1 ∧
    (selectByDone
        (updateItemAsDoneAsync [⟨1, false, "a"⟩, ⟨2, true, "b"⟩] 1)
        false).countP (fun x => x.id == 1) = 0 ∧
    updateItemAsDoneAsync
        (updateItemAsDoneAsync [⟨1, false, "a"⟩, ⟨2, true, "b"⟩] 1) 1
      = updateItemAsDoneAsync [⟨1, false, "a"⟩, ⟨2, true, "b"⟩] 1 ∧
    updateItemAsDoneAsync [⟨1, false, "a"⟩, ⟨2, true, "b"⟩] 9
      = [⟨1, false, "a"⟩, ⟨2, true, "b"⟩]) :=
  ⟨by decide, by decide, by decide, by decide, by decide,
   markDone_moves_once_idempotent [⟨1, false, "a"⟩, ⟨2, true, "b"⟩] 1 9
     ⟨1, false, "a"⟩ (by decide) (by decide) (by decide) (by decide)
     (by decide)⟩

/-- Claim C8: on a table held in rowid (ascending id) order, the SELECT
issued by `refetchItems` returns exactly the records whose done flag equals
the bound parameter, in ascending id (insertion) order; moreover the three
CRUD operations preserve that table order, so it is a store invariant. -/
theorem selectByDone_exact_and_ordered (rows : List ItemEntity) (d : Bool)
    (i : Nat) (t : String) (hsorted : idsSorted rows) :
    (∀ r : ItemEntity, r ∈ selectByDone rows d ↔ r ∈ rows ∧ r.done = d) ∧
    (selectByDone rows d).Pairwise (fun a b => a.id < b.id) ∧
    idsSorted (addItemAsync rows t) ∧
    idsSorted (updateItemAsDoneAsync rows i) ∧
    idsSorted (deleteItemAsync rows i) := by
  refine ⟨?_, ?_, ?_, ?_, ?_⟩
  · intro r
    simp [selectByDone, List.mem_filter]
  · exact List.Pairwise.sublist (List.filter_sublist rows) hsorted
  · rw [addItemAsync]
    split
    · rw [idsSorted, List.pairwise_append]
      refine ⟨hsorted, List.pairwise_singleton _ _, ?_⟩
      intro a ha b hb
      rw [List.mem_singleton] at hb
      subst hb
      exact id_lt_nextId rows a ha
    · exact hsorted
  · rw [idsSorted, updateItemAsDoneAsync, List.pairwise_map]
    refine List.Pairwise.imp ?_ hsorted
    intro a b hab
    by_cases ha : a.id = i <;> by_cases hb : b.id = i <;>
      simp [ha, hb] <;> omega
  · exact List.Pairwise.sublist (List.filter_sublist rows) hsorted

theorem selectByDone_exact_and_ordered_witness :
    idsSorted [⟨1, false, "a"⟩, ⟨2, true, "b"⟩, ⟨4, false, "c"⟩] ∧
    ((∀ r : ItemEntity,
        r ∈ selectByDone [⟨1, false, "a"⟩, ⟨2, true, "b"⟩, ⟨4, false, "c"⟩]
              false
          ↔ r ∈ ([⟨1, false, "a"⟩, ⟨2, true, "b"⟩, ⟨4, false, "c"⟩] :
                List ItemEntity) ∧ r.done = false) ∧
    (selectByDone [⟨1, false, "a"⟩, ⟨2, true, "b"⟩, ⟨4, false, "c"⟩]
        false).Pairwise (fun a b => a.id < b.id) ∧
    idsSorted (addItemAsync [⟨1, false, "a"⟩, ⟨2, true, "b"⟩, ⟨4, false, "c"⟩]
        "x") ∧
    idsSorted (updateItemAsDoneAsync
        [⟨1, false, "a"⟩, ⟨2, true, "b"⟩, ⟨4, false, "c"⟩] 2) ∧
    idsSorted (deleteItemAsync
        [⟨1, false, "a"⟩, ⟨2, true, "b"⟩, ⟨4, false, "c"⟩] 2)) :=
  ⟨by rw [idsSorted]; decide,
   selectByDone_exact_and_ordered
     [⟨1, false, "a"⟩, ⟨2, true, "b"⟩, ⟨4, false, "c"⟩] false 2 "x"
     (by rw [idsSorted]; decide)⟩

/-- Claim C1: when the persisted version is below the target, a failing
migration statement makes the whole `migrateDbIfNeeded` call abort with the
failure surfaced to the caller (`ok = false`), and the persisted
`user_version` is left at its pre-migration value. -/
theorem migrate_failure_keeps_version (db : MigrationDb)
    (createOk pragmaOk : Bool)
    (hv : db.userVersion < DATABASE_VERSION)
    (hfail : createOk = false ∨ pragmaOk = false) :
    (migrateDbIfNeeded createOk pragmaOk db).ok = false ∧
    (migrateDbIfNeeded createOk pragmaOk db).db.userVersion
      = db.userVersion := by
  have h0 : db.userVersion = 0 := by
    rw [DATABASE_VERSION] at hv
    omega
  cases createOk <;> cases pragmaOk <;>
    simp_all [migrateDbIfNeeded, DATABASE_VERSION, h0]

theorem migrate_failure_keeps_version_witness :
    (MigrationDb.mk 0 false []).userVersion < DATABASE_VERSION ∧
    ((false : Bool) = false ∨ (true : Bool) = false) ∧
    ((migrateDbIfNeeded false true (MigrationDb.mk 0 false [])).ok
        = false ∧
    (migrateDbIfNeeded false true (MigrationDb.mk 0 false [])).db.userVersion
      = (MigrationDb.mk 0 false []).userVersion) :=
  ⟨by decide, by decide,
   migrate_failure_keeps_version (MigrationDb.mk 0 false []) false true
     (by decide) (by decide)⟩

/-- Claim C3: when the persisted version already meets the target,
`migrateDbIfNeeded` executes no schema statements and leaves the database
(records and version) unchanged, yet still performs exactly one remote sync
call, before the version read (its trace is the sync call followed by the
version read and nothing else); hence a second call in succession does the
same — idempotent on the store but not side-effect-free. -/
theorem migrate_current_version_noop_still_syncs (db : MigrationDb)
    (createOk pragmaOk createOk2 pragmaOk2 : Bool)
    (hv : db.userVersion ≥ DATABASE_VERSION) :
    migrateDbIfNeeded createOk pragmaOk db
      = { ok := true, db := db,
          events := [DbEvent.syncLibSQL, DbEvent.readUserVersion] } ∧
    migrateDbIfNeeded createOk2 pragmaOk2
        (migrateDbIfNeeded createOk pragmaOk db).db
      = { ok := true, db := db,
          events := [DbEvent.syncLibSQL, DbEvent.readUserVersion] } := by
  have h1 : migrateDbIfNeeded createOk pragmaOk db
      = { ok := true, db := db,
          events := [DbEvent.syncLibSQL, DbEvent.readUserVersion] } := by
    rw [migrateDbIfNeeded]
    simp [hv]
  refine ⟨h1, ?_⟩
  rw [h1, migrateDbIfNeeded]
  simp [hv]

theorem migrate_current_version_noop_still_syncs_witness :
    (MigrationDb.mk 1 true [⟨1, false, "a"⟩]).userVersion
      ≥ DATABASE_VERSION ∧
    (migrateDbIfNeeded true true (MigrationDb.mk 1 true [⟨1, false, "a"⟩])
      = { ok := true, db := MigrationDb.mk 1 true [⟨1, false, "a"⟩],
          events := [DbEvent.syncLibSQL, DbEvent.readUserVersion] } ∧
    migrateDbIfNeeded false false
        (migrateDbIfNeeded true true
          (MigrationDb.mk 1 true [⟨1, false, "a"⟩])).db
      = { ok := true, db := MigrationDb.mk 1 true [⟨1, false, "a"⟩],
          events := [DbEvent.syncLibSQL, DbEvent.readUserVersion] }) :=
  ⟨by decide,
   migrate_current_version_noop_still_syncs
     (MigrationDb.mk 1 true [⟨1, false, "a"⟩]) true true false false
     (by decide)⟩

/-- Claim C2: with auto-sync enabled and the replication primitive failing
on every invocation, any number of interval ticks leaves the whole local
state (table rows and both materialized view partitions) unchanged and no
crash occurs; local CRUD and listing afterwards behave exactly as they did
before the failed ticks, so the store stays fully usable offline. -/
theorem failing_sync_preserves_local_state
    (reconcile : List ItemEntity → List ItemEntity) (n : Nat)
    (st : AppState) (t : String) (i : Nat) (d : Bool)
    (hviews : st.views = refetchItems st.rows) :
    runFailingTicks reconcile n st = st ∧
    (runFailingTicks reconcile n st).rows = st.rows ∧
    selectByDone (runFailingTicks reconcile n st).rows d
      = selectByDone st.rows d ∧
    addItemAsync (runFailingTicks reconcile n st).rows t
      = addItemAsync st.rows t ∧
    updateItemAsDoneAsync (runFailingTicks reconcile n st).rows i
      = updateItemAsDoneAsync st.rows i ∧
    deleteItemAsync (runFailingTicks reconcile n st).rows i
      = deleteItemAsync st.rows i := by
  have key : runFailingTicks reconcile n st = st := by
    induction n with
    | zero => rfl
    | succ m ih =>
      have hstep : (pollTick reconcile false st).state = st := by
        rw [pollTick]
        split
        · rw [sync]
          simp [syncLibSQL, ← hviews]
        · rfl
      rw [runFailingTicks, hstep]
      exact ih
  rw [key]
  exact ⟨rfl, rfl, rfl, rfl, rfl, rfl⟩

theorem failing_sync_preserves_local_state_witness :
    (AppState.mk [⟨1, false, "a"⟩]
        (ViewState.mk [⟨1, false, "a"⟩] []) true).views
      = refetchItems (AppState.mk [⟨1, false, "a"⟩]
          (ViewState.mk [⟨1, false, "a"⟩] []) true).rows ∧
    (runFailingTicks (fun rs => rs ++ rs) 2
        (AppState.mk [⟨1, false, "a"⟩]
          (ViewState.mk [⟨1, false, "a"⟩] []) true)
      = AppState.mk [⟨1, false, "a"⟩]
          (ViewState.mk [⟨1, false, "a"⟩] []) true ∧
    (runFailingTicks (fun rs => rs ++ rs) 2
        (AppState.mk [⟨1, false, "a"⟩]
          (ViewState.mk [⟨1, false, "a"⟩] []) true)).rows
      = (AppState.mk [⟨1, false, "a"⟩]
          (ViewState.mk [⟨1, false, "a"⟩] []) true).rows ∧
    selectByDone (runFailingTicks (fun rs => rs ++ rs) 2
        (AppState.mk [⟨1, false, "a"⟩]
          (ViewState.mk [⟨1, false, "a"⟩] []) true)).rows false
      = selectByDone (AppState.mk [⟨1, false, "a"⟩]
          (ViewState.mk [⟨1, false, "a"⟩] []) true).rows false ∧
    addItemAsync (runFailingTicks (fun rs => rs ++ rs) 2
        (AppState.mk [⟨1, false, "a"⟩]
          (ViewState.mk [⟨1, false, "a"⟩] []) true)).rows "x"
      = addItemAsync (AppState.mk [⟨1, false, "a"⟩]
          (ViewState.mk [⟨1, false, "a"⟩] []) true).rows "x" ∧
    updateItemAsDoneAsync (runFailingTicks (fun rs => rs ++ rs) 2
        (AppState.mk [⟨1, false, "a"⟩]
          (ViewState.mk [⟨1, false, "a"⟩] []) true)).rows 1
      = updateItemAsDoneAsync (AppState.mk [⟨1, false, "a"⟩]
          (ViewState.mk [⟨1, false, "a"⟩] []) true).rows 1 ∧
    deleteItemAsync (runFailingTicks (fun rs => rs ++ rs) 2
        (AppState.mk [⟨1, false, "a"⟩]
          (ViewState.mk [⟨1, false, "a"⟩] []) true)).rows 1
      = deleteItemAsync (AppState.mk [⟨1, false, "a"⟩]
          (ViewState.mk [⟨1, false, "a"⟩] []) true).rows 1) :=
  ⟨by decide,
   failing_sync_preserves_local_state (fun rs => rs ++ rs) 2
     (AppState.mk [⟨1, false, "a"⟩]
       (ViewState.mk [⟨1, false, "a"⟩] []) true) "x" 1 false (by decide)⟩

/-- Claim C9: while the auto-sync flag is enabled, each interval tick
performs exactly one sync call followed by exactly one refresh request,
and that refresh materializes both view partitions from the post-sync
rows; any sync invocation that requested a refresh issues it after the
sync call, and one that did not request it issues no refresh. -/
theorem tick_one_sync_then_refresh
    (reconcile : List ItemEntity → List ItemEntity) (okFlag : Bool)
    (st : AppState) (henabled : st.enablePollingSync = true) :
    (pollTick reconcile okFlag st).events
      = [UiEvent.syncCall, UiEvent.refreshRequest] ∧
    (pollTick reconcile okFlag st).state.views
      = refetchItems (pollTick reconcile okFlag st).state.rows ∧
    (sync reconcile okFlag true st).events
      = [UiEvent.syncCall, UiEvent.refreshRequest] ∧
    (sync reconcile okFlag false st).events = [UiEvent.syncCall] := by
  refine ⟨?_, ?_, ?_, ?_⟩ <;> simp [pollTick, sync, henabled]

theorem tick_one_sync_then_refresh_witness :
    (AppState.mk [⟨1, false, "a"⟩]
        (ViewState.mk [⟨1, false, "a"⟩] []) true).enablePollingSync
      = true ∧
    ((pollTick (fun _ => []) false
        (AppState.mk [⟨1, false, "a"⟩]
          (ViewState.mk [⟨1, false, "a"⟩] []) true)).events
      = [UiEvent.syncCall, UiEvent.refreshRequest] ∧
    (pollTick (fun _ => []) false
        (AppState.mk [⟨1, false, "a"⟩]
          (ViewState.mk [⟨1, false, "a"⟩] []) true)).state.views
      = refetchItems (pollTick (fun _ => []) false
          (AppState.mk [⟨1, false, "a"⟩]
            (ViewState.mk [⟨1, false, "a"⟩] []) true)).state.rows ∧
    (sync (fun _ => []) false true
        (AppState.mk [⟨1, false, "a"⟩]
          (ViewState.mk [⟨1, false, "a"⟩] []) true)).events
      = [UiEvent.syncCall, UiEvent.refreshRequest] ∧
    (sync (fun _ => []) false false
        (AppState.mk [⟨1, false, "a"⟩]
          (ViewState.mk [⟨1, false, "a"⟩] []) true)).events
      = [UiEvent.syncCall]) :=
  ⟨by decide,
   tick_one_sync_then_refresh (fun _ => []) false
     (AppState.mk [⟨1, false, "a"⟩]
       (ViewState.mk [⟨1, false, "a"⟩] []) true) (by decide)⟩
